import Mathlib

/-!
Verification of the LicenseTxtGenerator repository (src/models.py, src/main.py).

Strings are embedded as `List Char`.  Python-level operations used by the
source (`tok in s`, `s.split(tok)`, `s.strip()`, `d.get(k)`) are embedded as
executable Lean functions below.  Values that may be Python `None` are
embedded as `Option (List Char)`; a Python `TypeError` raised on a `None`
operand is embedded through `Except PyErr` / an error component.
-/

/-- `headOf tok s` is true when `tok` is an initial segment of `s`
(the elementary step of Python's substring scan). -/
def headOf : List Char → List Char → Bool
  | [], _ => true
  | _ :: _, [] => false
  | a :: as, b :: bs => a == b && headOf as bs

/-- `occursIn tok s` embeds Python's `tok in s` substring test. -/
def occursIn : List Char → List Char → Bool
  | tok, [] => tok.isEmpty
  | tok, c :: cs => headOf tok (c :: cs) || occursIn tok cs

/-- Fuelled worker for `splitTok`; the fuel is an upper bound on the length of
the string still to be scanned. -/
def splitAux (tok : List Char) : Nat → List Char → List (List Char)
  | _, [] => [[]]
  | 0, s => [s]
  | fuel + 1, c :: cs =>
    if headOf tok (c :: cs) then
      [] :: splitAux tok fuel (List.drop tok.length (c :: cs))
    else
      match splitAux tok fuel cs with
      | [] => [[c]]
      | r :: rs => (c :: r) :: rs

/-- `splitTok tok s` embeds Python's `s.split(tok)` for a non-empty separator:
the string is cut at each non-overlapping occurrence of `tok`, left to right. -/
def splitTok (tok s : List Char) : List (List Char) :=
  splitAux tok s.length s

/-- Left trim: drop leading whitespace. -/
def trimL (s : List Char) : List Char := s.dropWhile Char.isWhitespace

/-- `pystrip` embeds Python's `s.strip()`: whitespace is removed from both
ends of the string. -/
def pystrip (s : List Char) : List Char := trimL ((trimL s.reverse).reverse)

/-- `'\n'.join`-style joining with an arbitrary separator list. -/
def joinWith (sep : List Char) : List (List Char) → List Char
  | [] => []
  | [m] => m
  | m :: n :: rest => m ++ sep ++ joinWith sep (n :: rest)

/-- Python errors that the embedded code can raise. -/
inductive PyErr
  | typeError
deriving DecidableEq, Repr

/-- The `Operator` enumeration of src/models.py. -/
inductive Operator
  | EE
  | NE
  | GE
  | LE
  | G
  | L
  | TE
  | U
deriving DecidableEq, Repr

/-- The `.value` string of each `Operator` member (src/models.py lines 9-16). -/
def opValue : Operator → List Char
  | .EE => ['=', '=']
  | .NE => ['!', '=']
  | .GE => ['>', '=']
  | .LE => ['<', '=']
  | .G => ['>']
  | .L => ['<']
  | .TE => ['~', '=']
  | .U => []

/-- The `LICENSE_UNKNOWN` constant imported from the external `piplicenses`
library (its value there is the string "UNKNOWN"). -/
def LICENSE_UNKNOWN : List Char := "UNKNOWN".data

/-- A dynamically-typed Python value as far as the source compares them:
a string, an `Operator` enum member, or `None`. -/
inductive PyVal
  | vstr : List Char → PyVal
  | vop : Operator → PyVal
  | vnone
deriving DecidableEq, Repr

/-- Python `==` on the values above: values of different kinds are never
equal (in particular an `Operator` member never equals a `str`, and `None`
only equals `None`). -/
def pyEq : PyVal → PyVal → Bool
  | .vstr a, .vstr b => a == b
  | .vop a, .vop b => a == b
  | .vnone, .vnone => true
  | _, _ => false

/-- The `Package` dataclass of src/models.py.  Each field holds the value of
`d.get(key)`, which is `None` (`Option.none`) when the key was absent. -/
structure Package where
  name : Option (List Char)
  version : Option (List Char)
  license : Option (List Char)
  license_text : Option (List Char)
deriving DecidableEq, Repr

/-- Raw scanner record: a Python dict with string keys and string values,
embedded as an association list; `dget` embeds `d.get(k)`. -/
def dget (d : List (List Char × List Char)) (k : List Char) : Option (List Char) :=
  match d.find? (fun kv => kv.fst == k) with
  | some kv => some kv.snd
  | none => none

def keyName : List Char := "Name".data
def keyVersion : List Char := "Version".data
def keyLicense : List Char := "License".data
def keyLicenseText : List Char := "LicenseText".data

/-- `Package.from_dict` (src/models.py lines 34-50): read the four optional
keys; when `LicenseText` is present (all scanner values are strings, so the
`isinstance` guard of the source holds) it is stripped before storage. -/
def Package.from_dict (d : List (List Char × List Char)) : Package :=
  let name := dget d keyName
  let version := dget d keyVersion
  let license := dget d keyLicense
  let license_text :=
    match dget d keyLicenseText with
    | some t => some (pystrip t)
    | none => none
  ⟨name, version, license, license_text⟩

/-- The short-circuited `predicate` local function of `Package.has_nan`:
`(val is None) or (val == "") or (LICENSE_UNKNOWN in val)`. -/
def nanPred : Option (List Char) → Bool
  | none => true
  | some v => v == [] || occursIn LICENSE_UNKNOWN v

/-- `Package.has_nan` (src/models.py lines 52-63). -/
def Package.has_nan (p : Package) : Bool :=
  nanPred p.name || nanPred p.version || nanPred p.license || nanPred p.license_text

/-- Rendering of a possibly-`None` field inside an f-string: Python prints
`None` for the `None` value. -/
def strOfVal : Option (List Char) → List Char
  | none => "None".data
  | some s => s

/-- The body of `Package.__repr__` once `license_text` is known to be the
string `t` (src/models.py lines 65-72). -/
def pkgReprOf (p : Package) (t : List Char) : List Char :=
  let lt := if t.length < 20 then t else t.take 17 ++ "...".data
  "name=".data ++ strOfVal p.name ++ ", version=".data ++ strOfVal p.version ++
    ", license=".data ++ strOfVal p.license ++ ", license_text=".data ++ lt

/-- `Package.__repr__` (src/models.py lines 65-72).  It evaluates
`len(self.license_text)`, which raises `TypeError` when `license_text` is
`None`. -/
def Package.reprStr (p : Package) : Except PyErr (List Char) :=
  match p.license_text with
  | none => .error .typeError
  | some t => .ok (pkgReprOf p t)

/-- The `Requirement` dataclass of src/models.py.  `from_string` (the only
constructor exercised by the program) always supplies string fields. -/
structure Requirement where
  name : List Char
  version : List Char
  operator : Operator
deriving DecidableEq, Repr

/-- `Requirement.from_string` (src/models.py lines 87-145): strip the line,
then test the operator tokens with `in` in the fixed source order
`==`, `!=`, `>=`, `<=`, `>`, `<`, `~=`, splitting on the first one that
tests positive; note the `!=` branch assigns `Operator.EE` exactly as the
source does. -/
def Requirement.from_string (s0 : List Char) : Requirement :=
  let s := pystrip s0
  if occursIn (opValue .EE) s then
    ⟨(splitTok (opValue .EE) s).getD 0 [], (splitTok (opValue .EE) s).getD 1 [], .EE⟩
  else if occursIn (opValue .NE) s then
    ⟨(splitTok (opValue .NE) s).getD 0 [], (splitTok (opValue .NE) s).getD 1 [], .EE⟩
  else if occursIn (opValue .GE) s then
    ⟨(splitTok (opValue .GE) s).getD 0 [], (splitTok (opValue .GE) s).getD 1 [], .GE⟩
  else if occursIn (opValue .LE) s then
    ⟨(splitTok (opValue .LE) s).getD 0 [], (splitTok (opValue .LE) s).getD 1 [], .LE⟩
  else if occursIn (opValue .G) s then
    ⟨(splitTok (opValue .G) s).getD 0 [], (splitTok (opValue .G) s).getD 1 [], .G⟩
  else if occursIn (opValue .L) s then
    ⟨(splitTok (opValue .L) s).getD 0 [], (splitTok (opValue .L) s).getD 1 [], .L⟩
  else if occursIn (opValue .TE) s then
    ⟨(splitTok (opValue .TE) s).getD 0 [], (splitTok (opValue .TE) s).getD 1 [], .TE⟩
  else
    ⟨s, [], .U⟩

/-- `Requirement.validate` (src/models.py lines 147-165).  The two inner
branches compare `self.operator` (an `Operator` member) with
`Operator.EE.value` / `Operator.NE.value` (strings) using Python `==`. -/
def Requirement.validate (r : Requirement) (pkg : Package) : Bool :=
  if r.version == [] then
    pyEq (.vstr r.name) (match pkg.name with | none => .vnone | some s => .vstr s)
  else if pyEq (.vop r.operator) (.vstr (opValue .EE)) then
    pyEq (.vstr r.name) (match pkg.name with | none => .vnone | some s => .vstr s) &&
      pyEq (.vstr r.version) (match pkg.version with | none => .vnone | some s => .vstr s)
  else if pyEq (.vop r.operator) (.vstr (opValue .NE)) then
    pyEq (.vstr r.name) (match pkg.name with | none => .vnone | some s => .vstr s) &&
      !(pyEq (.vstr r.version) (match pkg.version with | none => .vnone | some s => .vstr s))
  else
    pyEq (.vstr r.name) (match pkg.name with | none => .vnone | some s => .vstr s)

/-- `Requirement.__repr__` (src/models.py lines 167-176). -/
def Requirement.reprStr (r : Requirement) : List Char :=
  if r.operator == .U then r.name ++ [' '] ++ r.version
  else r.name ++ opValue r.operator ++ r.version

example : Requirement.from_string "numpy>=1.0".data = ⟨"numpy".data, "1.0".data, .GE⟩ := by decide
example : Requirement.from_string "  numpy==1.26 ".data = ⟨"numpy".data, "1.26".data, .EE⟩ := by decide
example : Requirement.from_string "a!=2".data = ⟨"a".data, "2".data, .EE⟩ := by decide
example : Requirement.from_string "plainname".data = ⟨"plainname".data, [], .U⟩ := by decide
example : Requirement.from_string "a==b==c".data = ⟨"a".data, "b".data, .EE⟩ := by decide
example : Requirement.from_string "a~=3".data = ⟨"a".data, "3".data, .TE⟩ := by decide
example : splitTok "==".data "a==".data = [['a'], []] := by decide

/-- Prefix of the missing-value diagnostic of `_is_valid_packages`. -/
def msgNan (s : List Char) : List Char := "!!!! found nan pkg: ".data ++ s

/-- Prefix of the unrequired-package diagnostic of `_is_valid_packages`. -/
def msgUnreq (s : List Char) : List Char := "!!!! found unrequired pkg: ".data ++ s

/-- Prefix of the unsatisfied-requirement diagnostic of `_is_valid_packages`. -/
def msgUnsat (s : List Char) : List Char := "!!!! found unsatisfied pkg: ".data ++ s

/-- The first loop of `_is_valid_packages` (src/main.py lines 102-110): for
each package, flag a missing value and flag absence from the requirement
names, collecting `is_valid` and `lst_msg`; formatting a package whose
`license_text` is `None` raises `TypeError` (through `Package.__repr__`). -/
def pkgChecks (reqNames : List (Option (List Char))) :
    List Package → Bool → List (List Char) → Except PyErr (Bool × List (List Char))
  | [], v, msgs => .ok (v, msgs)
  | pkg :: rest, v, msgs => do
    let (v, msgs) ←
      if pkg.has_nan then do
        let s ← pkg.reprStr
        pure (false, msgs ++ [msgNan s])
      else pure (v, msgs)
    let (v, msgs) ←
      if reqNames.contains pkg.name then pure (v, msgs)
      else do
        let s ← pkg.reprStr
        pure (false, msgs ++ [msgUnreq s])
    pkgChecks reqNames rest v msgs

/-- The second loop of `_is_valid_packages` (src/main.py lines 112-116):
flag each requirement whose name is not among the package names. -/
def reqChecks (pkgNames : List (Option (List Char))) :
    List Requirement → Bool → List (List Char) → Bool × List (List Char)
  | [], v, msgs => (v, msgs)
  | r :: rest, v, msgs =>
    if pkgNames.contains (some r.name) then reqChecks pkgNames rest v msgs
    else reqChecks pkgNames rest false (msgs ++ [msgUnsat r.reprStr])

/-- `_is_valid_packages` before the final `'\n'.join`: the flag together with
the list `lst_msg` of diagnostic lines (src/main.py lines 90-117). -/
def isValidDiags (packges : List Package) (requirements : List Requirement) :
    Except PyErr (Bool × List (List Char)) := do
  let (v, msgs) ← pkgChecks (requirements.map (fun r => some r.name)) packges true []
  .ok (reqChecks (packges.map (fun p => p.name)) requirements v msgs)

/-- `_is_valid_packages` (src/main.py lines 90-117): returns the flag and the
`'\n'`-joined diagnostic text. -/
def isValidPackages (packges : List Package) (requirements : List Requirement) :
    Except PyErr (Bool × List Char) := do
  let (v, msgs) ← isValidDiags packges requirements
  .ok (v, joinWith ['\n'] msgs)

/-- The filter `[pkg for pkg in packages if target_license in pkg.license]`
of `_write_output_file` (src/main.py line 135): Python `in` raises
`TypeError` when a package's `license` is `None`. -/
def filterByLicense (target : List Char) : List Package → Except PyErr (List Package)
  | [] => .ok []
  | p :: ps =>
    match p.license with
    | none => .error .typeError
    | some lic => do
      let rest ← filterByLicense target ps
      .ok (if occursIn target lic then p :: rest else rest)

/-- The per-package writes of `_write_output_file` (src/main.py lines
143-147): the four header lines are written, then
`pkg.license_text + "\n\n"`, which raises `TypeError` when `license_text` is
`None` — after the header lines have already been written.  The result is
the text written so far plus the error, if any. -/
def pkgEntryParts (p : Package) : List Char × Option PyErr :=
  let hdr := "Package: ".data ++ strOfVal p.name ++ ['\n'] ++
    "Version: ".data ++ strOfVal p.version ++ ['\n'] ++
    "License: ".data ++ strOfVal p.license ++ ['\n'] ++
    "License Text:".data ++ ['\n']
  match p.license_text with
  | none => (hdr, some .typeError)
  | some t => (hdr ++ t ++ ['\n', '\n'], none)

/-- The `for i, pkg in enumerate(_pacakges)` loop of `_write_output_file`
(src/main.py lines 141-150): each entry, with a line of 80 `-` characters
after every entry except the last; an error stops the loop. -/
def renderPkgsLoop : List Package → List Char × Option PyErr
  | [] => ([], none)
  | [p] => pkgEntryParts p
  | p :: q :: rest =>
    let (s, err) := pkgEntryParts p
    match err with
    | some e => (s, some e)
    | none =>
      let (restS, err2) := renderPkgsLoop (q :: rest)
      (s ++ List.replicate 80 '-' ++ ['\n'] ++ restS, err2)

/-- The `for target_license in target_licenses` loop of `_write_output_file`
(src/main.py lines 133-150): per target, the filter is evaluated first
(raising before the banner when some `license` is `None`), then the banner
lines, then the package entries.  The result is the full text written to the
output file plus the error that interrupted writing, if any. -/
def renderSections (packages : List Package) : List (List Char) → List Char × Option PyErr
  | [] => ([], none)
  | t :: ts =>
    match filterByLicense t packages with
    | .error e => ([], some e)
    | .ok pkgs =>
      let bannerText := List.replicate 80 '=' ++ ['\n'] ++
        "Third-party packages under the ".data ++ t ++ " License:".data ++ ['\n'] ++
        List.replicate 80 '=' ++ ['\n']
      let (body, err) := renderPkgsLoop pkgs
      match err with
      | some e => (bannerText ++ body, some e)
      | none =>
        let (restS, err2) := renderSections packages ts
        (bannerText ++ body ++ restS, err2)

/-- A file system: an association of paths to file contents. -/
abbrev FileSys : Type := List (List Char × List Char)

/-- Content of the file at `path`, if it exists. -/
def getFile : FileSys → List Char → Option (List Char)
  | [], _ => none
  | (q, d) :: rest, p => if q == p then some d else getFile rest p

/-- Effect of `os.remove` (when the file exists) followed by
`open(path, "w")` and the writes: the file at `path` now holds exactly
`content`. -/
def setFile : FileSys → List Char → List Char → FileSys
  | [], p, c => [(p, c)]
  | (q, d) :: rest, p, c => if q == p then (p, c) :: rest else (q, d) :: setFile rest p c

/-- `_write_output_file` acting on the file system (src/main.py lines
120-151): remove any existing file at `output_file_path` and write the
rendered text there; a `TypeError` raised mid-loop leaves the partial text in
the file. -/
def writeOutputFile (packages : List Package) (output_file_path : List Char)
    (target_licenses : List (List Char)) (fs : FileSys) : FileSys × Option PyErr :=
  let (content, err) := renderSections packages target_licenses
  (setFile fs output_file_path content, err)

/-- `OUTPUT_FILE_PATH` of src/main.py. -/
def OUTPUT_FILE_PATH : List Char := "LICENSE.txt".data

/-- `TARGET_LICENSES` of src/main.py. -/
def TARGET_LICENSES : List (List Char) := ["MIT".data, "BSD".data, "GPL".data]

/-- The post-parsing part of `gen_license_txt` (src/main.py lines 185-190):
validate, print the joined diagnostics when invalid, then write the output
file.  A `TypeError` raised inside `_is_valid_packages` propagates before
anything is printed or written.  Returns the final file system, the lines
printed for diagnostics, and the error that aborted the run, if any. -/
def genLicenseTxtCore (packages : List Package) (requirements : List Requirement)
    (output_file_path : List Char) (target_licenses : List (List Char)) (fs : FileSys) :
    FileSys × List (List Char) × Option PyErr :=
  match isValidPackages packages requirements with
  | .error e => (fs, [], some e)
  | .ok (is_valid, msg) =>
    let printed := if is_valid then [] else [msg]
    let (fs2, err) := writeOutputFile packages output_file_path target_licenses fs
    (fs2, printed, err)

/-- Spec-side description of §4.3: the diagnostic lines produced for the
packages — for each package, in order, one missing-value diagnostic when it
is incomplete and one unrequired diagnostic when its name equals no
requirement name. -/
def pkgMsgsSpec (reqNames : List (Option (List Char))) : List Package → List (List Char)
  | [] => []
  | p :: rest =>
    (if p.has_nan then [msgNan (pkgReprOf p (p.license_text.getD []))] else []) ++
      (if reqNames.contains p.name then [] else
        [msgUnreq (pkgReprOf p (p.license_text.getD []))]) ++
      pkgMsgsSpec reqNames rest

/-- Spec-side description of §4.3: one unsatisfied diagnostic per requirement
whose name equals no package name. -/
def reqMsgsSpec (pkgNames : List (Option (List Char))) : List Requirement → List (List Char)
  | [] => []
  | r :: rest =>
    (if pkgNames.contains (some r.name) then [] else [msgUnsat r.reprStr]) ++
      reqMsgsSpec pkgNames rest

/-- Spec-side description of §4.3: the full ordered diagnostic list of a
validation run. -/
def validationMsgs (packges : List Package) (requirements : List Requirement) :
    List (List Char) :=
  pkgMsgsSpec (requirements.map (fun r => some r.name)) packges ++
    reqMsgsSpec (packges.map (fun p => p.name)) requirements

/-- Spec-side §4.4 banner: a line of 80 `=`, the section title line, and
another line of 80 `=`. -/
def specBanner (t : List Char) : List Char :=
  List.replicate 80 '=' ++ ['\n'] ++
    "Third-party packages under the ".data ++ t ++ " License:".data ++ ['\n'] ++
    List.replicate 80 '=' ++ ['\n']

/-- Spec-side §4.4 package block: the four lines
`Package:`/`Version:`/`License:`/`License Text:` followed by the license
text and a blank line. -/
def specEntry (p : Package) : List Char :=
  "Package: ".data ++ strOfVal p.name ++ ['\n'] ++
    "Version: ".data ++ strOfVal p.version ++ ['\n'] ++
    "License: ".data ++ strOfVal p.license ++ ['\n'] ++
    "License Text:".data ++ ['\n'] ++
    p.license_text.getD [] ++ ['\n', '\n']

/-- Spec-side §4.4 section for one target license: the banner, then the
blocks of the packages whose license contains the target as a substring, in
input order, separated by a line of 80 `-` with no trailing separator. -/
def specSection (packages : List Package) (t : List Char) : List Char :=
  specBanner t ++
    joinWith (List.replicate 80 '-' ++ ['\n'])
      ((packages.filter (fun p => occursIn t (p.license.getD []))).map specEntry)

/-- Spec-side §4.4 report: the sections of the target licenses in the given
order. -/
def specReport (packages : List Package) : List (List Char) → List Char
  | [] => []
  | t :: ts => specSection packages t ++ specReport packages ts

instance {e a : Type} [DecidableEq e] [DecidableEq a] : DecidableEq (Except e a) := fun x y =>
  match x, y with
  | .ok u, .ok v =>
    if h : u = v then .isTrue (by rw [h]) else .isFalse (fun he => h (Except.ok.inj he))
  | .error u, .error v =>
    if h : u = v then .isTrue (by rw [h]) else .isFalse (fun he => h (Except.error.inj he))
  | .ok _, .error _ => .isFalse (fun he => Except.noConfusion he)
  | .error _, .ok _ => .isFalse (fun he => Except.noConfusion he)

example : (isValidDiags
    [⟨some "A".data, some "1".data, some "MIT".data, some "t".data⟩,
     ⟨some "B".data, some "1".data, some "MIT".data, some "t".data⟩]
    [⟨"A".data, [], .U⟩, ⟨"C".data, [], .U⟩]) =
    .ok (false,
      [msgUnreq (pkgReprOf ⟨some "B".data, some "1".data, some "MIT".data, some "t".data⟩ "t".data),
       msgUnsat (Requirement.reprStr ⟨"C".data, [], .U⟩)]) := by decide

set_option maxRecDepth 4000 in
example : renderSections
    [⟨some "x".data, some "1".data, some "MIT".data, some "t".data⟩] ["MIT".data] =
    (specReport [⟨some "x".data, some "1".data, some "MIT".data, some "t".data⟩]
      ["MIT".data], none) := by decide

lemma headOf_one_false_append (b : Char) (s2 : List Char) (hb : headOf [b] s2 = false) :
    ∀ cs, headOf [b] cs = false → headOf [b] (cs ++ s2) = false := by
  intro cs h
  cases cs with
  | nil => simpa using hb
  | cons d ds =>
    have hd : (b == d) = false := by simpa [headOf] using h
    simp [headOf, hd]

lemma headOf_pair_append_false (a b c : Char) (cs s2 : List Char)
    (h : headOf [a, b] (c :: cs) = false) (hb : headOf [b] s2 = false) :
    headOf [a, b] (c :: (cs ++ s2)) = false := by
  cases hac : a == c with
  | false => simp [headOf, hac]
  | true =>
    have hcs : headOf [b] cs = false := by simpa [headOf, hac] using h
    simp [headOf, hac, headOf_one_false_append b s2 hb cs hcs]

lemma occursIn_pair_append (a b : Char) (s2 : List Char)
    (hb : headOf [b] s2 = false) (h2 : occursIn [a, b] s2 = false) :
    ∀ s1, occursIn [a, b] s1 = false → occursIn [a, b] (s1 ++ s2) = false := by
  intro s1
  induction s1 with
  | nil => intro _; simpa using h2
  | cons c cs ih =>
    intro h1
    simp only [occursIn, Bool.or_eq_false_iff] at h1
    simp only [List.cons_append, occursIn, Bool.or_eq_false_iff]
    exact ⟨headOf_pair_append_false a b c cs s2 h1.1 hb, ih h1.2⟩

lemma occursIn_append_right (tok s2 : List Char) (h : occursIn tok s2 = true) :
    ∀ s1, occursIn tok (s1 ++ s2) = true := by
  intro s1
  induction s1 with
  | nil => simpa using h
  | cons c cs ih => simp only [List.cons_append, occursIn]; simp [ih]

lemma splitAux_ne_nil (tok : List Char) : ∀ (f : Nat) (s : List Char), splitAux tok f s ≠ [] := by
  intro f s
  match f, s with
  | _, [] => simp [splitAux]
  | 0, c :: cs => simp [splitAux]
  | f + 1, c :: cs =>
    simp only [splitAux]
    split
    · simp
    · split <;> simp

lemma splitAux_fuel (tok : List Char) (ht : tok ≠ []) :
    ∀ (f1 f2 : Nat) (s : List Char), s.length ≤ f1 → s.length ≤ f2 →
      splitAux tok f1 s = splitAux tok f2 s := by
  intro f1
  induction f1 with
  | zero =>
    intro f2 s h1 _
    have hs : s = [] := List.eq_nil_of_length_eq_zero (Nat.le_zero.mp h1)
    subst hs
    cases f2 <;> simp [splitAux]
  | succ k ih =>
    intro f2 s h1 h2
    cases s with
    | nil => cases f2 <;> simp [splitAux]
    | cons c cs =>
      cases f2 with
      | zero => simp at h2
      | succ m =>
        have hcs1 : cs.length ≤ k := by simpa using h1
        have hcs2 : cs.length ≤ m := by simpa using h2
        have htok1 : 1 ≤ tok.length := by
          cases tok with
          | nil => exact absurd rfl ht
          | cons t ts => simp
        simp only [splitAux]
        cases hh : headOf tok (c :: cs) with
        | true =>
          simp only [hh, if_true]
          congr 1
          apply ih
          · simp only [List.length_drop, List.length_cons]; omega
          · simp only [List.length_drop, List.length_cons]; omega
        | false =>
          simp only [hh, Bool.false_eq_true, if_false]
          rw [ih m cs hcs1 hcs2]

lemma splitAux_pair_append (a b : Char) (s2 : List Char) (hb : headOf [b] s2 = false) :
    ∀ (s1 : List Char) (f : Nat), (s1 ++ s2).length ≤ f → occursIn [a, b] s1 = false →
      splitAux [a, b] f (s1 ++ s2) =
        match splitAux [a, b] s2.length s2 with
        | [] => [s1]
        | r :: rs => (s1 ++ r) :: rs := by
  intro s1
  induction s1 with
  | nil =>
    intro f hf _
    rw [List.nil_append] at hf ⊢
    rw [splitAux_fuel [a, b] (by simp) f s2.length s2 hf (le_refl _)]
    cases hsp : splitAux [a, b] s2.length s2 with
    | nil => exact absurd hsp (splitAux_ne_nil _ _ _)
    | cons r rs => simp
  | cons c cs ih =>
    intro f hf h1
    simp only [occursIn, Bool.or_eq_false_iff] at h1
    simp only [List.cons_append] at hf ⊢
    cases f with
    | zero => simp at hf
    | succ k =>
      have hk : (cs ++ s2).length ≤ k := by simpa using hf
      have hnh : headOf [a, b] (c :: (cs ++ s2)) = false :=
        headOf_pair_append_false a b c cs s2 h1.1 hb
      have hstep : splitAux [a, b] (k + 1) (c :: (cs ++ s2)) =
          match splitAux [a, b] k (cs ++ s2) with
          | [] => [[c]]
          | r :: rs => (c :: r) :: rs := by
        simp [splitAux, hnh]
      rw [hstep, ih k hk h1.2]
      cases hsp : splitAux [a, b] s2.length s2 with
      | nil => exact absurd hsp (splitAux_ne_nil _ _ _)
      | cons r rs => simp

lemma splitTok_pair_no_occur (a b : Char) (s : List Char) (h : occursIn [a, b] s = false) :
    splitTok [a, b] s = [s] := by
  have hmain := splitAux_pair_append a b [] (by simp [headOf]) s s.length (by simp) h
  simpa [splitTok, splitAux] using hmain

lemma dropWhile_all (p : Char → Bool) :
    ∀ (l1 : List Char), (∀ c ∈ l1, p c = true) → ∀ l2 : List Char,
      (l1 ++ l2).dropWhile p = l2.dropWhile p
  | [], _, l2 => by simp
  | c :: cs, h, l2 => by
    have hc : p c = true := h c (by simp)
    have ih := dropWhile_all p cs (fun d hd => h d (by simp [hd])) l2
    simp [List.dropWhile_cons, hc, ih]

lemma dropWhile_length_le (p : Char → Bool) :
    ∀ l : List Char, (l.dropWhile p).length ≤ l.length
  | [] => by simp
  | c :: cs => by
    cases hc : p c with
    | true =>
      simp only [List.dropWhile_cons, hc, if_true]
      exact Nat.le_succ_of_le (dropWhile_length_le p cs)
    | false => simp [List.dropWhile_cons, hc]

lemma head_not_of_dropWhile_fix (p : Char → Bool) (c : Char) (l : List Char)
    (h : (c :: l).dropWhile p = c :: l) : p c = false := by
  cases hc : p c with
  | false => rfl
  | true =>
    exfalso
    simp only [List.dropWhile_cons, hc, if_true] at h
    have hlen := dropWhile_length_le p l
    rw [h] at hlen
    simp at hlen

lemma dropWhile_fix_append (p : Char → Bool) (l1 l2 : List Char)
    (h1 : l1.dropWhile p = l1) (h2 : l2.dropWhile p = l2) :
    (l1 ++ l2).dropWhile p = l1 ++ l2 := by
  cases l1 with
  | nil => simpa using h2
  | cons c cs =>
    have hc := head_not_of_dropWhile_fix p c cs h1
    simp [List.dropWhile_cons, hc]

lemma pystrip_sandwich (wsl mid wsr : List Char) (hmne : mid ≠ [])
    (hl : ∀ c ∈ wsl, c.isWhitespace = true) (hr : ∀ c ∈ wsr, c.isWhitespace = true)
    (hm1 : mid.dropWhile Char.isWhitespace = mid)
    (hm2 : mid.reverse.dropWhile Char.isWhitespace = mid.reverse) :
    pystrip (wsl ++ mid ++ wsr) = mid := by
  have hrev : (wsl ++ mid ++ wsr).reverse = wsr.reverse ++ (mid.reverse ++ wsl.reverse) := by
    simp [List.reverse_append]
  have hr' : ∀ c ∈ wsr.reverse, Char.isWhitespace c = true :=
    fun c hc => hr c (List.mem_reverse.mp hc)
  have hl' : ∀ c ∈ wsl.reverse, Char.isWhitespace c = true :=
    fun c hc => hl c (List.mem_reverse.mp hc)
  have hfix2 : (mid.reverse ++ wsl.reverse).dropWhile Char.isWhitespace =
      mid.reverse ++ wsl.reverse := by
    cases hmr : mid.reverse with
    | nil => exact absurd (by simpa using congrArg List.reverse hmr) hmne
    | cons c cs =>
      have hc := head_not_of_dropWhile_fix Char.isWhitespace c cs (hmr ▸ hm2)
      simp [List.dropWhile_cons, hc]
  have step1 : trimL ((wsl ++ mid ++ wsr).reverse) = mid.reverse ++ wsl.reverse := by
    rw [hrev, trimL, dropWhile_all Char.isWhitespace wsr.reverse hr' (mid.reverse ++ wsl.reverse)]
    exact hfix2
  show trimL ((trimL (wsl ++ mid ++ wsr).reverse).reverse) = mid
  rw [step1]
  have hback : (mid.reverse ++ wsl.reverse).reverse = wsl ++ mid := by simp
  rw [hback, trimL, dropWhile_all Char.isWhitespace wsl hl mid, hm1]

lemma from_string_GE_branch (s mid : List Char) (hs : pystrip s = mid)
    (h1 : occursIn ['=', '='] mid = false) (h2 : occursIn ['!', '='] mid = false)
    (h3 : occursIn ['>', '='] mid = true) :
    Requirement.from_string s =
      ⟨(splitTok ['>', '='] mid).getD 0 [], (splitTok ['>', '='] mid).getD 1 [], .GE⟩ := by
  simp only [Requirement.from_string, hs, opValue]
  simp [h1, h2, h3]

lemma from_string_NE_branch (s mid : List Char) (hs : pystrip s = mid)
    (h1 : occursIn ['=', '='] mid = false) (h2 : occursIn ['!', '='] mid = true) :
    Requirement.from_string s =
      ⟨(splitTok ['!', '='] mid).getD 0 [], (splitTok ['!', '='] mid).getD 1 [], .EE⟩ := by
  simp only [Requirement.from_string, hs, opValue]
  simp [h1, h2]

/-- C1: for every manifest line of the form `name>=1.0` — allowing the
surrounding whitespace that `from_string` strips — where the (stripped) name
contains no operator token, `Requirement.from_string` yields
`{name, "1.0", GE}`: the two-character `>=` branch is taken (verifying the
fixed precedence order `==`, `!=`, `>=`, `<=`, `>`, `<`, `~=`), and the
single-character `>` branch is never reached. -/
theorem c1_ge_parse (wsl wsr name : List Char)
    (hwsl : ∀ c ∈ wsl, c.isWhitespace = true)
    (hwsr : ∀ c ∈ wsr, c.isWhitespace = true)
    (hname : name.dropWhile Char.isWhitespace = name)
    (hno : ∀ tok ∈ [opValue .EE, opValue .NE, opValue .GE, opValue .LE,
      opValue .G, opValue .L, opValue .TE], occursIn tok name = false) :
    Requirement.from_string (wsl ++ (name ++ ['>', '=', '1', '.', '0']) ++ wsr) =
      ⟨name, ['1', '.', '0'], Operator.GE⟩ := by
  have hEE : occursIn ['=', '='] name = false := hno (opValue .EE) (by simp)
  have hNE : occursIn ['!', '='] name = false := hno (opValue .NE) (by simp)
  have hGE : occursIn ['>', '='] name = false := hno (opValue .GE) (by simp)
  have hm1 : (name ++ ['>', '=', '1', '.', '0']).dropWhile Char.isWhitespace =
      name ++ ['>', '=', '1', '.', '0'] :=
    dropWhile_fix_append _ _ _ hname (by decide)
  have hm2 : (name ++ ['>', '=', '1', '.', '0']).reverse.dropWhile Char.isWhitespace =
      (name ++ ['>', '=', '1', '.', '0']).reverse := by
    have hrev : (name ++ ['>', '=', '1', '.', '0']).reverse =
        '0' :: ('.' :: '1' :: '=' :: '>' :: name.reverse) := by
      rw [List.reverse_append]
      rfl
    rw [hrev]
    simp [List.dropWhile_cons, (by decide : Char.isWhitespace '0' = false)]
  have hstrip : pystrip (wsl ++ (name ++ ['>', '=', '1', '.', '0']) ++ wsr) =
      name ++ ['>', '=', '1', '.', '0'] :=
    pystrip_sandwich wsl _ wsr (by simp) hwsl hwsr hm1 hm2
  have hoEE : occursIn ['=', '='] (name ++ ['>', '=', '1', '.', '0']) = false :=
    occursIn_pair_append '=' '=' _ (by decide) (by decide) name hEE
  have hoNE : occursIn ['!', '='] (name ++ ['>', '=', '1', '.', '0']) = false :=
    occursIn_pair_append '!' '=' _ (by decide) (by decide) name hNE
  have hoGE : occursIn ['>', '='] (name ++ ['>', '=', '1', '.', '0']) = true :=
    occursIn_append_right _ _ (by decide) name
  have hsplitGE : splitTok ['>', '='] (name ++ ['>', '=', '1', '.', '0']) =
      [name, ['1', '.', '0']] := by
    have hmain := splitAux_pair_append '>' '=' ['>', '=', '1', '.', '0'] (by decide) name
      (name ++ ['>', '=', '1', '.', '0']).length (le_refl _) hGE
    have hcomp : splitAux ['>', '='] (['>', '=', '1', '.', '0'] : List Char).length
        ['>', '=', '1', '.', '0'] = [[], ['1', '.', '0']] := by decide
    rw [splitTok, hmain, hcomp]
    simp
  rw [from_string_GE_branch _ _ hstrip hoEE hoNE hoGE, hsplitGE]
  simp [List.getD]

/-- Witness for c1_ge_parse at the concrete line `" numpy>=1.0\n"`. -/
theorem c1_ge_parse_instance :
    (∀ tok ∈ [opValue .EE, opValue .NE, opValue .GE, opValue .LE,
      opValue .G, opValue .L, opValue .TE], occursIn tok "numpy".data = false) ∧
    Requirement.from_string ([' '] ++ ("numpy".data ++ ['>', '=', '1', '.', '0']) ++ ['\n']) =
      ⟨"numpy".data, ['1', '.', '0'], Operator.GE⟩ :=
  ⟨by decide, c1_ge_parse [' '] ['\n'] "numpy".data (by decide) (by decide) (by decide) (by decide)⟩

/-- C4: for every manifest line whose first matching token in the precedence
order is `!=` — here the family `name!=version` (with the whitespace that
`from_string` strips, with no operator token inside name or version, and
with no `==` formed at a boundary), the line is still recognized: it is
split at the `!=` token into name and version, but the assigned operator is
`EE` (EQ), not `NE` (NEQ), exactly as the source's `!=` branch does. -/
theorem c4_neq_assigns_ee (wsl wsr name version : List Char)
    (hwsl : ∀ c ∈ wsl, c.isWhitespace = true)
    (hwsr : ∀ c ∈ wsr, c.isWhitespace = true)
    (hname : name.dropWhile Char.isWhitespace = name)
    (hver : version.reverse.dropWhile Char.isWhitespace = version.reverse)
    (hnEE : occursIn (opValue .EE) name = false)
    (hnNE : occursIn (opValue .NE) name = false)
    (hvEE : occursIn (opValue .EE) version = false)
    (hvNE : occursIn (opValue .NE) version = false)
    (hveq : headOf ['='] version = false) :
    Requirement.from_string (wsl ++ (name ++ '!' :: '=' :: version) ++ wsr) =
      ⟨name, version, Operator.EE⟩ := by
  have hm1 : (name ++ '!' :: '=' :: version).dropWhile Char.isWhitespace =
      name ++ '!' :: '=' :: version := by
    apply dropWhile_fix_append _ _ _ hname
    simp [List.dropWhile_cons, (by decide : Char.isWhitespace '!' = false)]
  have hm2 : (name ++ '!' :: '=' :: version).reverse.dropWhile Char.isWhitespace =
      (name ++ '!' :: '=' :: version).reverse := by
    have hrev : (name ++ '!' :: '=' :: version).reverse =
        version.reverse ++ '=' :: '!' :: name.reverse := by
      rw [show (name ++ '!' :: '=' :: version) = (name ++ ['!', '=']) ++ version by simp,
        List.reverse_append, List.reverse_append]
      rfl
    rw [hrev]
    apply dropWhile_fix_append _ _ _ hver
    simp [List.dropWhile_cons, (by decide : Char.isWhitespace '=' = false)]
  have hstrip : pystrip (wsl ++ (name ++ '!' :: '=' :: version) ++ wsr) =
      name ++ '!' :: '=' :: version :=
    pystrip_sandwich wsl _ wsr (by simp) hwsl hwsr hm1 hm2
  have hvEE' : occursIn ['=', '='] version = false := hvEE
  have htailEE : occursIn ['=', '='] ('!' :: '=' :: version) = false := by
    have e1 : headOf ['=', '='] ('!' :: '=' :: version) = false := by
      simp [headOf, (by decide : ('=' == '!') = false)]
    have e2 : headOf ['=', '='] ('=' :: version) = false := by
      simp [headOf, hveq]
    simp [occursIn, e1, e2, hvEE']
  have hoEE : occursIn ['=', '='] (name ++ '!' :: '=' :: version) = false :=
    occursIn_pair_append '=' '=' _ (by simp [headOf, (by decide : ('=' == '!') = false)])
      htailEE name hnEE
  have hoNE : occursIn ['!', '='] (name ++ '!' :: '=' :: version) = true := by
    apply occursIn_append_right
    simp [occursIn, headOf]
  have hsplitNE : splitTok ['!', '='] (name ++ '!' :: '=' :: version) = [name, version] := by
    have hmain := splitAux_pair_append '!' '=' ('!' :: '=' :: version)
      (by simp [headOf, (by decide : ('=' == '!') = false)]) name
      (name ++ '!' :: '=' :: version).length (le_refl _) hnNE
    have hhead : headOf ['!', '='] ('!' :: '=' :: version) = true := by
      simp [headOf]
    have htail : splitAux ['!', '='] ('!' :: '=' :: version).length ('!' :: '=' :: version) =
        [[], version] := by
      have hlen : ('!' :: '=' :: version).length = version.length + 1 + 1 := by simp
      rw [hlen]
      have hstep : splitAux ['!', '='] (version.length + 1 + 1) ('!' :: '=' :: version) =
          [] :: splitAux ['!', '='] (version.length + 1)
            (List.drop (['!', '='] : List Char).length ('!' :: '=' :: version)) := by
        simp [splitAux, hhead]
      rw [hstep, show List.drop (['!', '='] : List Char).length ('!' :: '=' :: version) =
        version from rfl]
      rw [splitAux_fuel ['!', '='] (by simp) (version.length + 1) version.length version
        (Nat.le_succ _) (le_refl _)]
      rw [show splitAux ['!', '='] version.length version = splitTok ['!', '='] version from rfl]
      rw [splitTok_pair_no_occur '!' '=' version hvNE]
    rw [splitTok, hmain, htail]
    simp
  rw [from_string_NE_branch _ _ hstrip hoEE hoNE, hsplitNE]
  simp [List.getD]

/-- Witness for c4_neq_assigns_ee at the concrete line `"flask!=2.0\n"`. -/
theorem c4_neq_assigns_ee_instance :
    occursIn (opValue .EE) "flask".data = false ∧
    occursIn (opValue .NE) "2.0".data = false ∧
    Requirement.from_string ([] ++ ("flask".data ++ '!' :: '=' :: "2.0".data) ++ ['\n']) =
      ⟨"flask".data, "2.0".data, Operator.EE⟩ :=
  ⟨by decide, by decide,
    c4_neq_assigns_ee [] ['\n'] "flask".data "2.0".data (by decide) (by decide) (by decide)
      (by decide) (by decide) (by decide) (by decide) (by decide) (by decide)⟩

lemma pyEq_vop_vstr (o : Operator) (s : List Char) : pyEq (.vop o) (.vstr s) = false := rfl

lemma pyEq_vstr_vnone (s : List Char) : pyEq (.vstr s) .vnone = false := rfl

lemma pyEq_vstr_vstr (a b : List Char) : pyEq (.vstr a) (.vstr b) = (a == b) := rfl

/-- C10: `Requirement.validate` returns true iff the requirement's name
equals the package's name, regardless of the operator and of both versions:
the `EQ`/`NEQ` branches compare the `Operator` member against a string and
are never taken, so the name-only fallback always decides. -/
theorem c10_validate_name_only (r : Requirement) (p : Package) :
    r.validate p = true ↔ p.name = some r.name := by
  cases hn : p.name with
  | none =>
    simp only [Requirement.validate, hn, pyEq_vop_vstr, pyEq_vstr_vnone, Bool.false_eq_true,
      if_false, ite_self]
    simp
  | some s =>
    simp only [Requirement.validate, hn, pyEq_vop_vstr, pyEq_vstr_vstr, Bool.false_eq_true,
      if_false, ite_self]
    rw [beq_iff_eq, Option.some_inj]
    exact ⟨fun h => h.symm, fun h => h.symm⟩

lemma dropWhile_dropWhile (p : Char → Bool) :
    ∀ l : List Char, (l.dropWhile p).dropWhile p = l.dropWhile p
  | [] => rfl
  | c :: cs => by
    cases hc : p c with
    | true => simp [List.dropWhile_cons, hc, dropWhile_dropWhile p cs]
    | false => simp [List.dropWhile_cons, hc]

lemma reverse_dropWhile_fix (p : Char → Bool) (Y : List Char)
    (hY : Y.reverse.dropWhile p = Y.reverse) :
    (Y.dropWhile p).reverse.dropWhile p = (Y.dropWhile p).reverse := by
  cases hd : (Y.dropWhile p).reverse with
  | nil => rfl
  | cons c cs =>
    have hYrev : Y.reverse = c :: (cs ++ (Y.takeWhile p).reverse) := by
      calc Y.reverse = (Y.takeWhile p ++ Y.dropWhile p).reverse := by
            rw [List.takeWhile_append_dropWhile]
        _ = (Y.dropWhile p).reverse ++ (Y.takeWhile p).reverse := by rw [List.reverse_append]
        _ = c :: (cs ++ (Y.takeWhile p).reverse) := by rw [hd]; rfl
    have hc : p c = false := by
      apply head_not_of_dropWhile_fix p c (cs ++ (Y.takeWhile p).reverse)
      rw [← hYrev]
      exact hY
    rw [hd] at *
    simp [List.dropWhile_cons, hc]

lemma pystrip_left_fix (s : List Char) :
    (pystrip s).dropWhile Char.isWhitespace = pystrip s :=
  dropWhile_dropWhile Char.isWhitespace ((trimL s.reverse).reverse)

lemma pystrip_right_fix (s : List Char) :
    (pystrip s).reverse.dropWhile Char.isWhitespace = (pystrip s).reverse := by
  have hY : ((trimL s.reverse).reverse).reverse.dropWhile Char.isWhitespace =
      ((trimL s.reverse).reverse).reverse := by
    rw [List.reverse_reverse]
    exact dropWhile_dropWhile Char.isWhitespace s.reverse
  exact reverse_dropWhile_fix Char.isWhitespace ((trimL s.reverse).reverse) hY

/-- C6: `Package.from_dict` stores each key's value as read (`None` — the
empty value — for a missing key), and stores `LicenseText`, when present,
stripped of leading and trailing whitespace (the stored text really has no
whitespace at either end). -/
theorem c6_from_dict_fields (d : List (List Char × List Char)) :
    (dget d keyName = none → (Package.from_dict d).name = none) ∧
    (dget d keyVersion = none → (Package.from_dict d).version = none) ∧
    (dget d keyLicense = none → (Package.from_dict d).license = none) ∧
    (dget d keyLicenseText = none → (Package.from_dict d).license_text = none) ∧
    (∀ s, dget d keyName = some s → (Package.from_dict d).name = some s) ∧
    (∀ s, dget d keyVersion = some s → (Package.from_dict d).version = some s) ∧
    (∀ s, dget d keyLicense = some s → (Package.from_dict d).license = some s) ∧
    (∀ t, dget d keyLicenseText = some t →
      (Package.from_dict d).license_text = some (pystrip t) ∧
      (pystrip t).dropWhile Char.isWhitespace = pystrip t ∧
      (pystrip t).reverse.dropWhile Char.isWhitespace = (pystrip t).reverse) := by
  refine ⟨?_, ?_, ?_, ?_, ?_, ?_, ?_, ?_⟩
  · intro h; simp [Package.from_dict, h]
  · intro h; simp [Package.from_dict, h]
  · intro h; simp [Package.from_dict, h]
  · intro h; simp [Package.from_dict, h]
  · intro s h; simp [Package.from_dict, h]
  · intro s h; simp [Package.from_dict, h]
  · intro s h; simp [Package.from_dict, h]
  · intro t h
    exact ⟨by simp [Package.from_dict, h], pystrip_left_fix t, pystrip_right_fix t⟩

/-- Witness for c6_from_dict_fields at a record holding only `Name` and a
`LicenseText` with surrounding whitespace. -/
theorem c6_from_dict_fields_instance :
    (Package.from_dict [(keyName, "x".data), (keyLicenseText, ' ' :: "MIT text".data)]).version
       = none ∧
    (Package.from_dict [(keyName, "x".data), (keyLicenseText, ' ' :: "MIT text".data)]).license_text
       = some (pystrip (' ' :: "MIT text".data)) :=
  ⟨(c6_from_dict_fields _).2.1 (by decide),
    ((c6_from_dict_fields _).2.2.2.2.2.2.2 _ (by decide)).1⟩

/-- Spec-side §4.2 condition on one field: absent, empty, or containing the
reserved "unknown" sentinel as a substring. -/
def fieldMissingSpec (v : Option (List Char)) : Prop :=
  v = none ∨ v = some [] ∨ ∃ s, v = some s ∧ occursIn LICENSE_UNKNOWN s = true

lemma nanPred_iff (v : Option (List Char)) : nanPred v = true ↔ fieldMissingSpec v := by
  cases v with
  | none => simp [nanPred, fieldMissingSpec]
  | some s =>
    simp only [nanPred, fieldMissingSpec, Bool.or_eq_true, beq_iff_eq]
    constructor
    · rintro (h | h)
      · exact Or.inr (Or.inl (by rw [h]))
      · exact Or.inr (Or.inr ⟨s, rfl, h⟩)
    · rintro (h | h | ⟨t, ht, hu⟩)
      · exact absurd h (by simp)
      · exact Or.inl (by simpa using h)
      · exact Or.inr (by cases ht; exact hu)

/-- C7: `Package.has_nan` is true iff at least one of the four fields is
absent, empty, or contains the reserved "unknown" sentinel substring; in
particular it is true on the parse of every raw record missing one of the
four scanner keys. -/
theorem c7_has_nan_characterization :
    (∀ p : Package, p.has_nan = true ↔
      (fieldMissingSpec p.name ∨ fieldMissingSpec p.version ∨
        fieldMissingSpec p.license ∨ fieldMissingSpec p.license_text)) ∧
    (∀ d : List (List Char × List Char),
      (dget d keyName = none ∨ dget d keyVersion = none ∨
        dget d keyLicense = none ∨ dget d keyLicenseText = none) →
      (Package.from_dict d).has_nan = true) := by
  constructor
  · intro p
    simp [Package.has_nan, Bool.or_eq_true, nanPred_iff, or_assoc]
  · intro d h
    rcases h with h | h | h | h <;> simp [Package.has_nan, Package.from_dict, h, nanPred]

/-- Witness for c7_has_nan_characterization: a record with only `Name`
parses to an incomplete package. -/
theorem c7_has_nan_characterization_instance :
    (Package.from_dict [(keyName, "x".data)]).has_nan = true :=
  c7_has_nan_characterization.2 [(keyName, "x".data)] (Or.inr (Or.inl (by decide)))

lemma exceptBind_ok {e a b : Type} (x : a) (f : a → Except e b) :
    (Except.ok x : Except e a) >>= f = f x := rfl

lemma listIsEmpty_append (a b : List (List Char)) :
    (a ++ b).isEmpty = (a.isEmpty && b.isEmpty) := by
  cases a <;> simp

lemma pkgChecks_spec (reqNames : List (Option (List Char))) :
    ∀ (ps : List Package), (∀ p ∈ ps, p.license_text.isSome = true) →
      ∀ (v : Bool) (msgs : List (List Char)),
        pkgChecks reqNames ps v msgs =
          .ok (v && (pkgMsgsSpec reqNames ps).isEmpty, msgs ++ pkgMsgsSpec reqNames ps)
  | [], _, v, msgs => by simp [pkgChecks, pkgMsgsSpec]
  | p :: rest, h, v, msgs => by
    obtain ⟨t, ht⟩ := Option.isSome_iff_exists.mp (h p (by simp))
    have ih := pkgChecks_spec reqNames rest (fun q hq => h q (List.mem_cons_of_mem p hq))
    cases hnan : p.has_nan with
    | true =>
      by_cases hcont : p.name ∈ reqNames
      · simp [pkgChecks, pkgMsgsSpec, hnan, hcont, Package.reprStr, ht, ih,
          exceptBind_ok, List.append_assoc]
      · simp [pkgChecks, pkgMsgsSpec, hnan, hcont, Package.reprStr, ht, ih,
          exceptBind_ok, List.append_assoc]
    | false =>
      by_cases hcont : p.name ∈ reqNames
      · simp [pkgChecks, pkgMsgsSpec, hnan, hcont, Package.reprStr, ht, ih,
          exceptBind_ok, List.append_assoc]
      · simp [pkgChecks, pkgMsgsSpec, hnan, hcont, Package.reprStr, ht, ih,
          exceptBind_ok, List.append_assoc]

lemma reqChecks_spec (pkgNames : List (Option (List Char))) :
    ∀ (rs : List Requirement) (v : Bool) (msgs : List (List Char)),
      reqChecks pkgNames rs v msgs =
        (v && (reqMsgsSpec pkgNames rs).isEmpty, msgs ++ reqMsgsSpec pkgNames rs)
  | [], v, msgs => by simp [reqChecks, reqMsgsSpec]
  | r :: rest, v, msgs => by
    have ih := reqChecks_spec pkgNames rest
    by_cases hcont : some r.name ∈ pkgNames
    · simp [reqChecks, reqMsgsSpec, hcont, ih]
    · simp [reqChecks, reqMsgsSpec, hcont, ih, List.append_assoc]

/-- C3 (amended): provided every package's license text is present (a `None`
license text makes the diagnostic formatting raise, see the counterexample),
`_is_valid_packages` produces exactly the spec-side diagnostic list — one
missing-value diagnostic per incomplete package, one unrequired diagnostic
per package whose name (by exact equality) matches no requirement name, one
unsatisfied diagnostic per requirement whose name matches no package name,
in that order — and the overall-valid flag is true iff no diagnostic was
emitted; the returned text is the `'\n'`-join of those diagnostics. -/
theorem c3_validator_diagnostics (ps : List Package) (rs : List Requirement)
    (h : ∀ p ∈ ps, p.license_text.isSome = true) :
    isValidDiags ps rs = .ok ((validationMsgs ps rs).isEmpty, validationMsgs ps rs) ∧
    isValidPackages ps rs =
      .ok ((validationMsgs ps rs).isEmpty, joinWith ['\n'] (validationMsgs ps rs)) := by
  have hd : isValidDiags ps rs =
      .ok ((validationMsgs ps rs).isEmpty, validationMsgs ps rs) := by
    simp [isValidDiags, pkgChecks_spec (rs.map (fun r => some r.name)) ps h true [],
      reqChecks_spec, validationMsgs, exceptBind_ok, listIsEmpty_append]
  exact ⟨hd, by simp [isValidPackages, hd, exceptBind_ok]⟩

/-- Witness for c3_validator_diagnostics at the claim's fixture: complete
packages `{A, B}` and requirements `{A, C}` give exactly one unrequired
diagnostic (for B), exactly one unsatisfied diagnostic (for C), and an
overall-valid flag of false. -/
theorem c3_validator_diagnostics_instance :
    isValidDiags
      [⟨some "A".data, some "1".data, some "MIT".data, some "t".data⟩,
       ⟨some "B".data, some "1".data, some "MIT".data, some "t".data⟩]
      [⟨"A".data, [], .U⟩, ⟨"C".data, [], .U⟩] =
    .ok (false,
      [msgUnreq (pkgReprOf ⟨some "B".data, some "1".data, some "MIT".data, some "t".data⟩
        "t".data),
       msgUnsat (Requirement.reprStr ⟨"C".data, [], .U⟩)]) :=
  ((c3_validator_diagnostics
    [⟨some "A".data, some "1".data, some "MIT".data, some "t".data⟩,
     ⟨some "B".data, some "1".data, some "MIT".data, some "t".data⟩]
    [⟨"A".data, [], .U⟩, ⟨"C".data, [], .U⟩] (by decide)).1).trans (by decide)

/-- C3 counterexample: with an incomplete package whose `license_text` is
absent (`None`), `_is_valid_packages` does not return a report at all — it
raises `TypeError` while formatting the missing-value diagnostic — so the
claim's universal description of the emitted diagnostics fails on this
input. -/
theorem c3_counterexample :
    isValidPackages [⟨some "A".data, some "1".data, some "MIT".data, none⟩]
      [⟨"A".data, [], .U⟩] = .error .typeError := by decide

lemma filterByLicense_ok (t : List Char) :
    ∀ (ps : List Package), (∀ p ∈ ps, p.license.isSome = true) →
      filterByLicense t ps = .ok (ps.filter (fun p => occursIn t (p.license.getD [])))
  | [], _ => by simp [filterByLicense]
  | p :: rest, h => by
    obtain ⟨lic, hl⟩ := Option.isSome_iff_exists.mp (h p (by simp))
    have ih := filterByLicense_ok t rest (fun q hq => h q (List.mem_cons_of_mem p hq))
    cases ho : occursIn t lic with
    | true => simp [filterByLicense, hl, ih, exceptBind_ok, List.filter_cons, ho]
    | false => simp [filterByLicense, hl, ih, exceptBind_ok, List.filter_cons, ho]

/-- C5 (amended): provided every package's license field is present (an
absent license makes the filter's `in` test raise, see the counterexample),
a package is kept for a target license section exactly when the target
occurs as a substring of its license field — substring match, not exact
match, so a dual-licensed package is kept for several targets, and a
package matching no target is simply left out of every section with no
diagnostic. -/
theorem c5_substring_filter (t : List Char) (ps : List Package)
    (h : ∀ p ∈ ps, p.license.isSome = true) :
    filterByLicense t ps = .ok (ps.filter (fun p => occursIn t (p.license.getD []))) ∧
    ∀ p, p ∈ ps.filter (fun p => occursIn t (p.license.getD [])) ↔
      (p ∈ ps ∧ occursIn t (p.license.getD []) = true) := by
  refine ⟨filterByLicense_ok t ps h, ?_⟩
  intro p
  simp [List.mem_filter]

/-- Witness for c5_substring_filter: the dual-licensed package
`BSD-3-Clause OR MIT` is kept for both `BSD` and `MIT`, while the
`Apache-2.0` package is kept for neither. -/
theorem c5_substring_filter_instance :
    filterByLicense "BSD".data
      [⟨some "x".data, some "1".data, some "BSD-3-Clause OR MIT".data, some "t".data⟩,
       ⟨some "z".data, some "1".data, some "Apache-2.0".data, some "t".data⟩] =
      .ok [⟨some "x".data, some "1".data, some "BSD-3-Clause OR MIT".data, some "t".data⟩] ∧
    filterByLicense "MIT".data
      [⟨some "x".data, some "1".data, some "BSD-3-Clause OR MIT".data, some "t".data⟩,
       ⟨some "z".data, some "1".data, some "Apache-2.0".data, some "t".data⟩] =
      .ok [⟨some "x".data, some "1".data, some "BSD-3-Clause OR MIT".data, some "t".data⟩] :=
  ⟨((c5_substring_filter "BSD".data _ (by decide)).1).trans (by decide),
   ((c5_substring_filter "MIT".data _ (by decide)).1).trans (by decide)⟩

/-- C5 counterexample: a package with an absent license field is not
"silently omitted" — the filter raises `TypeError` and no section is
written at all. -/
theorem c5_counterexample :
    renderSections [⟨some "z".data, some "1".data, none, some "t".data⟩] ["MIT".data] =
      ([], some .typeError) := by decide

lemma renderPkgsLoop_spec :
    ∀ (ps : List Package), (∀ p ∈ ps, p.license_text.isSome = true) →
      renderPkgsLoop ps =
        (joinWith (List.replicate 80 '-' ++ ['\n']) (ps.map specEntry), none)
  | [], _ => by simp [renderPkgsLoop, joinWith]
  | [p], h => by
    obtain ⟨t, ht⟩ := Option.isSome_iff_exists.mp (h p (by simp))
    simp [renderPkgsLoop, pkgEntryParts, specEntry, ht, joinWith]
  | p :: q :: rest, h => by
    obtain ⟨t, ht⟩ := Option.isSome_iff_exists.mp (h p (by simp))
    have ih := renderPkgsLoop_spec (q :: rest) (fun r hr => h r (List.mem_cons_of_mem p hr))
    simp [renderPkgsLoop, pkgEntryParts, ht, ih, specEntry, joinWith, List.append_assoc]

set_option maxRecDepth 8000 in
/-- C2 (amended): provided every package's license and license-text fields
are present (an absent field raises `TypeError` mid-write, see the
counterexample), `_write_output_file` writes, for each target license in the
given order, the 80-`=` banner with the section title, then the blocks of
the matching packages in input order — each the four
`Package:`/`Version:`/`License:`/`License Text:` lines followed by the text
and a blank line — separated by a line of 80 `-` with no trailing separator,
and finishes without error. -/
theorem c2_write_output_format (ps : List Package) (ts : List (List Char))
    (hlic : ∀ p ∈ ps, p.license.isSome = true)
    (htxt : ∀ p ∈ ps, p.license_text.isSome = true) :
    renderSections ps ts = (specReport ps ts, none) := by
  induction ts with
  | nil => simp [renderSections, specReport]
  | cons t ts ih =>
    have hfil : ∀ p ∈ ps.filter (fun p => occursIn t (p.license.getD [])),
        p.license_text.isSome = true :=
      fun p hp => htxt p (List.mem_of_mem_filter hp)
    simp [renderSections, filterByLicense_ok t ps hlic, specReport, specSection, specBanner,
      renderPkgsLoop_spec _ hfil, ih, List.append_assoc]

/-- Witness for c2_write_output_format at the spec's fixture: packages
`x` (MIT) and `y` (BSD-3-Clause) with targets `[MIT, BSD]`. -/
theorem c2_write_output_format_instance :
    renderSections
      [⟨some "x".data, some "1".data, some "MIT".data, some "tx".data⟩,
       ⟨some "y".data, some "2".data, some "BSD-3-Clause".data, some "ty".data⟩]
      ["MIT".data, "BSD".data] =
    (specReport
      [⟨some "x".data, some "1".data, some "MIT".data, some "tx".data⟩,
       ⟨some "y".data, some "2".data, some "BSD-3-Clause".data, some "ty".data⟩]
      ["MIT".data, "BSD".data], none) :=
  c2_write_output_format _ _ (by decide) (by decide)

/-- C2 counterexample: a package matching a target but with an absent
license text does not get its claimed block — `_write_output_file` raises
`TypeError` after the four header lines, so the writer does not complete as
described for every package list. -/
theorem c2_counterexample :
    (renderSections [⟨some "x".data, some "1".data, some "MIT".data, none⟩]
      ["MIT".data]).2 = some PyErr.typeError := by decide

lemma getFile_setFile (fs : FileSys) (path c : List Char) :
    getFile (setFile fs path c) path = some c := by
  induction fs with
  | nil => simp [setFile, getFile]
  | cons kv rest ih =>
    obtain ⟨q, d⟩ := kv
    cases hq : q == path with
    | true => simp [setFile, getFile, hq]
    | false => simp [setFile, getFile, hq, ih]

/-- C9 (amended): the report is written to exactly the caller-supplied
output path (by default the constant `LICENSE.txt`; no timestamp enters the
path), and a file already at that path does not survive the run: it is
removed and replaced, so after any run in which validation returned, the
file at the output path holds the newly rendered report whatever the file
system held before. -/
theorem c9_fixed_path_overwrites (fs : FileSys) (ps : List Package)
    (rs : List Requirement) (path : List Char) (ts : List (List Char)) (v : Bool)
    (m : List Char) (hok : isValidPackages ps rs = .ok (v, m)) :
    getFile (genLicenseTxtCore ps rs path ts fs).1 path = some (renderSections ps ts).1 := by
  rcases hrs : renderSections ps ts with ⟨content, err⟩
  simp [genLicenseTxtCore, hok, writeOutputFile, hrs, getFile_setFile]

/-- Witness for c9_fixed_path_overwrites: an empty run on a file system that
already holds a prior `LICENSE.txt`. -/
theorem c9_fixed_path_overwrites_instance :
    isValidPackages [] [] = .ok (true, []) ∧
    getFile (genLicenseTxtCore [] [] OUTPUT_FILE_PATH TARGET_LICENSES
      [(OUTPUT_FILE_PATH, "OLD".data)]).1 OUTPUT_FILE_PATH =
      some (renderSections ([] : List Package) TARGET_LICENSES).1 :=
  ⟨by decide,
    c9_fixed_path_overwrites [(OUTPUT_FILE_PATH, "OLD".data)] [] [] OUTPUT_FILE_PATH
      TARGET_LICENSES true [] (by decide)⟩

/-- C9 counterexample: a report file existing before the run does not remain
unchanged — after the run the file at the (fixed, timestamp-free) output
path no longer holds its prior content. -/
theorem c9_counterexample :
    getFile (genLicenseTxtCore [] [] OUTPUT_FILE_PATH TARGET_LICENSES
      [(OUTPUT_FILE_PATH, "OLD".data)]).1 OUTPUT_FILE_PATH ≠ some "OLD".data := by
  decide

/-- C8: evaluation at the failing input — a single incomplete package whose
`LicenseText` is absent, with its name duly listed in the requirements.
The claim (and the spec) say consistency violations are never fatal and the
full report is still written; the code instead raises `TypeError` while
formatting the incomplete-package diagnostic, aborting `gen_license_txt`
before anything is printed or written: the file system is untouched and no
report exists. -/
theorem c8_incomplete_package_fatal :
    genLicenseTxtCore [⟨some "A".data, some "1".data, some "MIT".data, none⟩]
      [⟨"A".data, [], .U⟩] OUTPUT_FILE_PATH TARGET_LICENSES [] =
      ([], [], some PyErr.typeError) := by decide
